import Mathlib

/-!
Verification of the scheduled-post dispatcher of the Buzzalicious backend.

The definitions below are a shallow embedding of
`backend/src/services/scheduler.service.ts` (the dispatch tick and the
per-post processing) and of the scheduled-post CRUD routes (schedule,
list, cancel).  External collaborators (the Prisma store, the Twitter and
LinkedIn publisher services) are modelled as explicit data: the store is a
list of rows, publisher outcomes are `Except`-valued oracles keyed by post
id, and store-update failures are a boolean oracle.  Side effects are
recorded as an explicit trace of events.
-/

/-- The closed platform set of the `platform` column: twitter, linkedin or both. -/
inductive Platform
  | twitter
  | linkedin
  | both
  deriving DecidableEq, Repr

/-- The status values a ScheduledPost row can hold. -/
inductive Status
  | pending
  | posted
  | failed
  | cancelled
  deriving DecidableEq, Repr

/-- The owning user's stored platform credentials, as read by the dispatcher
(`user.twitterAccessToken`, `user.twitterAccessSecret`,
`user.linkedinAccessToken`, `user.linkedinTokenExpiry`). Timestamps are
integers. -/
structure User where
  email : String
  twitterAccessToken : Option String
  twitterAccessSecret : Option String
  linkedinAccessToken : Option String
  linkedinTokenExpiry : Option Int
  deriving DecidableEq, Repr

/-- A ScheduledPost row, with the per-platform outcome columns written by the
dispatcher. -/
structure ScheduledPost where
  id : Nat
  userId : Nat
  content : String
  platform : Platform
  scheduledFor : Int
  status : Status
  twitterPostId : Option String
  twitterPostedAt : Option Int
  twitterError : Option String
  linkedinPostId : Option String
  linkedinPostedAt : Option Int
  linkedinError : Option String
  generationRequestId : Option Nat
  deriving DecidableEq, Repr

/-- JavaScript truthiness of an optional string field: absent and the empty
string are falsy. -/
def truthyStr : Option String → Bool
  | none => false
  | some s => !(s == "")

/-- Outcome of one platform branch of `processPost`: the local
`twitterSuccess`/`linkedinSuccess`, `twitterPostId`/`linkedinPostId` and
`twitterError`/`linkedinError` variables, plus whether the outbound publish
call was actually made. -/
structure BranchResult where
  success : Bool
  postId : Option String
  errMsg : Option String
  called : Bool
  deriving DecidableEq, Repr

/-- Branch result for a platform the post does not name: nothing happens and
all the local variables keep their initial values. -/
def skipBranch : BranchResult :=
  { success := false, postId := none, errMsg := none, called := false }

/-- The Twitter branch of `processPost`: if both stored Twitter credentials
are truthy the tweet is attempted (the oracle `result` standing for
`twitterService.postTweet`), otherwise the synthetic error
"Twitter not authorized" is recorded without any outbound call. -/
def twitterBranch (u : User) (result : Except String String) : BranchResult :=
  if truthyStr u.twitterAccessToken && truthyStr u.twitterAccessSecret then
    match result with
    | Except.ok pid => { success := true, postId := some pid, errMsg := none, called := true }
    | Except.error msg => { success := false, postId := none, errMsg := some msg, called := true }
  else
    { success := false, postId := none, errMsg := some "Twitter not authorized", called := false }

/-- The expiry test of the LinkedIn branch:
`user.linkedinTokenExpiry && new Date(user.linkedinTokenExpiry) <= new Date()`. -/
def linkedinExpired (u : User) (now : Int) : Bool :=
  match u.linkedinTokenExpiry with
  | some e => decide (e ≤ now)
  | none => false

/-- The LinkedIn branch of `processPost`: a truthy access token is required;
an expired token throws "LinkedIn token expired" before the service call and
is caught by the branch's own catch; an absent token records
"LinkedIn not authorized".  Only in the remaining case is the outbound call
(the oracle `result`, standing for `linkedinService.postText`) made. -/
def linkedinBranch (u : User) (now : Int) (result : Except String String) : BranchResult :=
  if truthyStr u.linkedinAccessToken then
    if linkedinExpired u now then
      { success := false, postId := none, errMsg := some "LinkedIn token expired", called := false }
    else
      match result with
      | Except.ok pid => { success := true, postId := some pid, errMsg := none, called := true }
      | Except.error msg => { success := false, postId := none, errMsg := some msg, called := true }
  else
    { success := false, postId := none, errMsg := some "LinkedIn not authorized", called := false }

/-- The "Determine overall status" cascade at the end of `processPost`. -/
def overallStatus (platform : Platform) (twitterSuccess linkedinSuccess : Bool) : Status :=
  if platform == Platform.twitter && twitterSuccess then Status.posted
  else if platform == Platform.linkedin && linkedinSuccess then Status.posted
  else if platform == Platform.both && (twitterSuccess || linkedinSuccess) then Status.posted
  else Status.failed

/-- An observable side effect of processing one post: an outbound publish
call, the ScheduledPost row update, or the GenerationRequest row update. -/
inductive Effect
  | publishTwitter
  | publishLinkedIn
  | updatePost (id : Nat)
  | updateGen (id : Nat)
  deriving DecidableEq, Repr

/-- Result of `processPost`: the row as written back by the single
`prisma.scheduledPost.update`, and the trace of side effects in order. -/
structure ProcessOutcome where
  post : ScheduledPost
  trace : List Effect
  deriving DecidableEq, Repr

/-- The guard `platform === 'twitter' || platform === 'both'` around the
Twitter branch: run the branch when it holds, otherwise leave the local
variables untouched. -/
def twSelect (post : ScheduledPost) (u : User) (result : Except String String) : BranchResult :=
  if post.platform == Platform.twitter || post.platform == Platform.both then
    twitterBranch u result
  else skipBranch

/-- The guard `platform === 'linkedin' || platform === 'both'` around the
LinkedIn branch. -/
def liSelect (post : ScheduledPost) (u : User) (now : Int)
    (result : Except String String) : BranchResult :=
  if post.platform == Platform.linkedin || post.platform == Platform.both then
    linkedinBranch u now result
  else skipBranch

/-- Shallow embedding of `SchedulerService.processPost`: run the Twitter
branch when `platform` is twitter or both, the LinkedIn branch when it is
linkedin or both, aggregate the overall status, write the row back once,
and update the originating generation request when one is linked and at
least one platform succeeded. -/
def processPost (post : ScheduledPost) (u : User) (now : Int)
    (twitterResult linkedinResult : Except String String) : ProcessOutcome :=
  let tw := twSelect post u twitterResult
  let li := liSelect post u now linkedinResult
  let status := overallStatus post.platform tw.success li.success
  let post' : ScheduledPost :=
    { post with
      status := status
      twitterPostId := tw.postId
      twitterPostedAt := if tw.success then some now else none
      twitterError := tw.errMsg
      linkedinPostId := li.postId
      linkedinPostedAt := if li.success then some now else none
      linkedinError := li.errMsg }
  let genTrace :=
    match post.generationRequestId with
    | some gid => if tw.success || li.success then [Effect.updateGen gid] else []
    | none => []
  { post := post'
    trace :=
      (if tw.called then [Effect.publishTwitter] else []) ++
      (if li.called then [Effect.publishLinkedIn] else []) ++
      [Effect.updatePost post.id] ++ genTrace }

/-- The due-work query predicate of `processDuePosts`:
`status = 'pending' AND scheduledFor <= now`. -/
def isDue (now : Int) (p : ScheduledPost) : Bool :=
  p.status == Status.pending && decide (p.scheduledFor ≤ now)

/-- The `prisma.scheduledPost.update({ where: { id } })` write: replace the
row(s) with the updated post's id. -/
def applyUpdate (store : List ScheduledPost) (p' : ScheduledPost) : List ScheduledPost :=
  store.map (fun q => if q.id = p'.id then p' else q)

/-- The tick's environment: the users table keyed by userId, the two
publisher oracles keyed by post id, and the store-failure oracle for the
row update (true means `prisma.scheduledPost.update` throws for that id). -/
structure TickEnv where
  users : Nat → User
  twitterOutcome : Nat → Except String String
  linkedinOutcome : Nat → Except String String
  updateFails : Nat → Bool

/-- The sequential for-loop of `processDuePosts` over the due snapshot.  The
whole loop body runs inside the tick's single try/catch, so the first store
update that throws ends the tick: the catch logs and returns, leaving the
remaining due posts untouched. -/
def runPosts (env : TickEnv) (now : Int) : List ScheduledPost → List ScheduledPost → List ScheduledPost
  | [], store => store
  | p :: rest, store =>
    if env.updateFails p.id then store
    else
      runPosts env now rest
        (applyUpdate store
          (processPost p (env.users p.userId) now
            (env.twitterOutcome p.id) (env.linkedinOutcome p.id)).post)

/-- Shallow embedding of `SchedulerService.processDuePosts`: snapshot the
pending-and-due rows, then process them sequentially. -/
def processDuePosts (env : TickEnv) (now : Int) (store : List ScheduledPost) : List ScheduledPost :=
  runPosts env now (store.filter (isDue now)) store

/-- The body of a POST / schedule request as the handler reads it:
`content`, `platform` and `scheduledFor` may each be absent. -/
structure ScheduleRequest where
  content : Option String
  platform : Option String
  scheduledFor : Option Int
  generationRequestId : Option Nat
  deriving DecidableEq, Repr

/-- The `['twitter', 'linkedin', 'both'].includes(platform)` test, returning
the platform variant when the string is in the closed set. -/
def parsePlatform : String → Option Platform
  | "twitter" => some Platform.twitter
  | "linkedin" => some Platform.linkedin
  | "both" => some Platform.both
  | _ => none

/-- Shallow embedding of the schedule handler (`router.post('/')`): reject
when a required field is JS-falsy (absent or empty), when the platform is
not in the closed set, or when the scheduled time is not strictly in the
future; otherwise create the row.  Modelled from the spec: the Prisma
schema is not part of the repository snapshot, and per the spec a newly
created ScheduledPost defaults to `status = pending` with all per-platform
outcome columns null. -/
def scheduleScheduledPost (req : ScheduleRequest) (userId : Nat) (now : Int)
    (newId : Nat) : Except String ScheduledPost :=
  match req.content, req.platform, req.scheduledFor with
  | some c, some pl, some sf =>
    if c == "" || pl == "" then
      Except.error "Missing required fields: content, platform, scheduledFor"
    else
      match parsePlatform pl with
      | none => Except.error "Invalid platform. Must be twitter, linkedin, or both"
      | some platform =>
        if sf ≤ now then
          Except.error "Scheduled time must be in the future"
        else
          Except.ok
            { id := newId
              userId := userId
              content := c
              platform := platform
              scheduledFor := sf
              status := Status.pending
              twitterPostId := none
              twitterPostedAt := none
              twitterError := none
              linkedinPostId := none
              linkedinPostedAt := none
              linkedinError := none
              generationRequestId := req.generationRequestId }
  | _, _, _ => Except.error "Missing required fields: content, platform, scheduledFor"

/-- Ascending order on the `scheduledFor` column, the `orderBy` of the list
handler. -/
def byScheduledFor (a b : ScheduledPost) : Prop :=
  a.scheduledFor ≤ b.scheduledFor

instance : DecidableRel byScheduledFor :=
  fun a b => Int.decLe a.scheduledFor b.scheduledFor

instance : IsTotal ScheduledPost byScheduledFor :=
  ⟨fun a b => Int.le_total a.scheduledFor b.scheduledFor⟩

instance : IsTrans ScheduledPost byScheduledFor :=
  ⟨fun _ _ _ hab hbc => Int.le_trans hab hbc⟩

/-- The row predicate of the list handler's `findMany`: the owner's rows,
further filtered by status only when a truthy status query parameter was
given. -/
def listWhere (userId : Nat) (statusFilter : Option Status) (p : ScheduledPost) : Bool :=
  p.userId == userId &&
    match statusFilter with
    | some s => p.status == s
    | none => true

/-- Shallow embedding of the list handler (`router.get('/')`): the owner's
rows, optionally filtered by status, ordered by `scheduledFor` ascending. -/
def listScheduledPosts (store : List ScheduledPost) (userId : Nat)
    (statusFilter : Option Status) : List ScheduledPost :=
  List.insertionSort byScheduledFor (store.filter (listWhere userId statusFilter))

/-- Shallow embedding of the cancel handler (`router.delete('/:id')`): look
the row up by id and owner; reject a missing row and a row whose status is
`posted`; otherwise set the status to `cancelled`. -/
def cancelScheduledPost (store : List ScheduledPost) (postId userId : Nat) :
    Except String (List ScheduledPost) :=
  match store.find? (fun p => p.id == postId && p.userId == userId) with
  | none => Except.error "Scheduled post not found"
  | some p =>
    if p.status == Status.posted then
      Except.error "Cannot cancel a post that has already been posted"
    else
      Except.ok
        (store.map (fun q =>
          if q.id = postId then { q with status := Status.cancelled } else q))

/-! ## Helper lemmas -/

theorem processPost_post_eq (p : ScheduledPost) (u : User) (now : Int)
    (twRes liRes : Except String String) :
    (processPost p u now twRes liRes).post =
      { p with
        status := overallStatus p.platform (twSelect p u twRes).success
          (liSelect p u now liRes).success
        twitterPostId := (twSelect p u twRes).postId
        twitterPostedAt := if (twSelect p u twRes).success then some now else none
        twitterError := (twSelect p u twRes).errMsg
        linkedinPostId := (liSelect p u now liRes).postId
        linkedinPostedAt := if (liSelect p u now liRes).success then some now else none
        linkedinError := (liSelect p u now liRes).errMsg } := rfl

theorem processPost_trace_eq (p : ScheduledPost) (u : User) (now : Int)
    (twRes liRes : Except String String) :
    (processPost p u now twRes liRes).trace =
      (if (twSelect p u twRes).called then [Effect.publishTwitter] else []) ++
      (if (liSelect p u now liRes).called then [Effect.publishLinkedIn] else []) ++
      [Effect.updatePost p.id] ++
      (match p.generationRequestId with
       | some gid =>
          if (twSelect p u twRes).success || (liSelect p u now liRes).success then
            [Effect.updateGen gid]
          else []
       | none => []) := rfl

theorem overallStatus_terminal (pl : Platform) (ts ls : Bool) :
    overallStatus pl ts ls = Status.posted ∨ overallStatus pl ts ls = Status.failed := by
  cases pl <;> cases ts <;> cases ls <;> decide

theorem processPost_id (p : ScheduledPost) (u : User) (now : Int)
    (twRes liRes : Except String String) :
    (processPost p u now twRes liRes).post.id = p.id := rfl

theorem processPost_status_eq (p : ScheduledPost) (u : User) (now : Int)
    (twRes liRes : Except String String) :
    (processPost p u now twRes liRes).post.status =
      overallStatus p.platform (twSelect p u twRes).success
        (liSelect p u now liRes).success := rfl

/-! ## C2: the final-status aggregation rule -/

/-- C2: the dispatcher's final status is `posted` exactly when the post's
platform is twitter and the Twitter attempt succeeded, or linkedin and the
LinkedIn attempt succeeded, or both and at least one attempt succeeded; in
every other case it is `failed`. -/
theorem dispatch_finalStatus_rule (p : ScheduledPost) (u : User) (now : Int)
    (twRes liRes : Except String String) :
    ((processPost p u now twRes liRes).post.status = Status.posted ↔
      ((p.platform = Platform.twitter ∧ (twitterBranch u twRes).success = true) ∨
       (p.platform = Platform.linkedin ∧ (linkedinBranch u now liRes).success = true) ∨
       (p.platform = Platform.both ∧
         ((twitterBranch u twRes).success = true ∨
          (linkedinBranch u now liRes).success = true)))) ∧
    ((processPost p u now twRes liRes).post.status = Status.posted ∨
     (processPost p u now twRes liRes).post.status = Status.failed) := by
  refine ⟨?_, ?_⟩
  · rw [processPost_status_eq]
    cases hpl : p.platform <;>
      simp only [twSelect, liSelect, hpl, skipBranch] <;>
      cases htw : (twitterBranch u twRes).success <;>
      cases hli : (linkedinBranch u now liRes).success <;>
      simp [overallStatus, htw, hli]
  · rw [processPost_status_eq]
    exact overallStatus_terminal _ _ _

/-! ## C8: side effects per processed post -/

/-- Recognizes an outbound publish call in the effect trace. -/
def isPublishEffect : Effect → Bool
  | Effect.publishTwitter => true
  | Effect.publishLinkedIn => true
  | _ => false

/-- Recognizes a ScheduledPost row update in the effect trace. -/
def isRowUpdateEffect : Effect → Bool
  | Effect.updatePost _ => true
  | _ => false

/-- C8: processing one due post performs at most two outbound publish calls
and exactly one ScheduledPost store update (the aggregated-outcome write),
whatever the platform field, the credentials and the outcomes. -/
theorem dispatch_effects_perPost (p : ScheduledPost) (u : User) (now : Int)
    (twRes liRes : Except String String) :
    ((processPost p u now twRes liRes).trace.filter isRowUpdateEffect).length = 1 ∧
    ((processPost p u now twRes liRes).trace.filter isPublishEffect).length ≤ 2 := by
  rw [processPost_trace_eq]
  cases p.generationRequestId <;>
    simp only [List.filter_append, List.length_append] <;>
    split_ifs <;>
    simp [isPublishEffect, isRowUpdateEffect]

/-! ## Branch lemmas and fixtures -/

theorem twitterBranch_errMsg_isSome (u : User) (r : Except String String) :
    (twitterBranch u r).errMsg.isSome = !(twitterBranch u r).success := by
  unfold twitterBranch
  split_ifs <;> cases r <;> rfl

theorem linkedinBranch_errMsg_isSome (u : User) (now : Int) (r : Except String String) :
    (linkedinBranch u now r).errMsg.isSome = !(linkedinBranch u now r).success := by
  unfold linkedinBranch
  split_ifs <;> cases r <;> rfl

/-- A fresh ScheduledPost row, as test fixture. -/
def mkPost (id userId : Nat) (pl : Platform) (sf : Int) (st : Status) : ScheduledPost :=
  { id := id
    userId := userId
    content := "hello"
    platform := pl
    scheduledFor := sf
    status := st
    twitterPostId := none
    twitterPostedAt := none
    twitterError := none
    linkedinPostId := none
    linkedinPostedAt := none
    linkedinError := none
    generationRequestId := none }

/-- A user holding valid credentials for both platforms, as test fixture. -/
def fullUser : User :=
  { email := "u@example.com"
    twitterAccessToken := some "tok"
    twitterAccessSecret := some "sec"
    linkedinAccessToken := some "li-tok"
    linkedinTokenExpiry := none }

/-- A user holding no stored credentials at all, as test fixture. -/
def noCredUser : User :=
  { email := "n@example.com"
    twitterAccessToken := none
    twitterAccessSecret := none
    linkedinAccessToken := none
    linkedinTokenExpiry := none }

/-! ## C5: failure isolation for platform = both -/

/-- C5: for a post with platform `both`, each platform's publish call is made
exactly when its own branch decides to call, independently of the other
platform's outcome; if exactly one branch succeeds the final status is
`posted` with exactly the failing platform's error field populated, and if
both fail the final status is `failed` with both error fields populated. -/
theorem dispatch_both_isolation (p : ScheduledPost) (u : User) (now : Int)
    (twRes liRes : Except String String) (hp : p.platform = Platform.both) :
    (Effect.publishTwitter ∈ (processPost p u now twRes liRes).trace ↔
      (twitterBranch u twRes).called = true) ∧
    (Effect.publishLinkedIn ∈ (processPost p u now twRes liRes).trace ↔
      (linkedinBranch u now liRes).called = true) ∧
    ((twitterBranch u twRes).success = true ∧ (linkedinBranch u now liRes).success = false →
      (processPost p u now twRes liRes).post.status = Status.posted ∧
      (processPost p u now twRes liRes).post.twitterError.isSome = false ∧
      (processPost p u now twRes liRes).post.linkedinError.isSome = true) ∧
    ((twitterBranch u twRes).success = false ∧ (linkedinBranch u now liRes).success = true →
      (processPost p u now twRes liRes).post.status = Status.posted ∧
      (processPost p u now twRes liRes).post.twitterError.isSome = true ∧
      (processPost p u now twRes liRes).post.linkedinError.isSome = false) ∧
    ((twitterBranch u twRes).success = false ∧ (linkedinBranch u now liRes).success = false →
      (processPost p u now twRes liRes).post.status = Status.failed ∧
      (processPost p u now twRes liRes).post.twitterError.isSome = true ∧
      (processPost p u now twRes liRes).post.linkedinError.isSome = true) := by
  have hTw : twSelect p u twRes = twitterBranch u twRes := by
    simp [twSelect, hp]
  have hLi : liSelect p u now liRes = linkedinBranch u now liRes := by
    simp [liSelect, hp]
  have hTrace := processPost_trace_eq p u now twRes liRes
  rw [hTw, hLi] at hTrace
  have hPost := processPost_post_eq p u now twRes liRes
  rw [hTw, hLi] at hPost
  refine ⟨?_, ?_, ?_, ?_, ?_⟩
  · rw [hTrace]
    cases p.generationRequestId <;> split_ifs <;> simp_all
  · rw [hTrace]
    cases p.generationRequestId <;> split_ifs <;> simp_all
  · rintro ⟨hts, hls⟩
    have herr := twitterBranch_errMsg_isSome u twRes
    have lerr := linkedinBranch_errMsg_isSome u now liRes
    rw [hts] at herr
    rw [hls] at lerr
    simp [hPost, overallStatus, hp, hts, hls, herr, lerr]
  · rintro ⟨hts, hls⟩
    have herr := twitterBranch_errMsg_isSome u twRes
    have lerr := linkedinBranch_errMsg_isSome u now liRes
    rw [hts] at herr
    rw [hls] at lerr
    simp [hPost, overallStatus, hp, hts, hls, herr, lerr]
  · rintro ⟨hts, hls⟩
    have herr := twitterBranch_errMsg_isSome u twRes
    have lerr := linkedinBranch_errMsg_isSome u now liRes
    rw [hts] at herr
    rw [hls] at lerr
    simp [hPost, overallStatus, hp, hts, hls, herr, lerr]

/-- Witness for C5: a concrete `both` post where Twitter succeeds and the
LinkedIn call fails, ending `posted` with only the LinkedIn error set. -/
theorem dispatch_both_isolation_witness :
    (processPost (mkPost 1 1 Platform.both 0 Status.pending) fullUser 10
      (Except.ok "123") (Except.error "boom")).post.status = Status.posted ∧
    (processPost (mkPost 1 1 Platform.both 0 Status.pending) fullUser 10
      (Except.ok "123") (Except.error "boom")).post.twitterError.isSome = false ∧
    (processPost (mkPost 1 1 Platform.both 0 Status.pending) fullUser 10
      (Except.ok "123") (Except.error "boom")).post.linkedinError.isSome = true := by
  have h := dispatch_both_isolation (mkPost 1 1 Platform.both 0 Status.pending) fullUser 10
    (Except.ok "123") (Except.error "boom") rfl
  exact h.2.2.1 ⟨rfl, rfl⟩

/-! ## C7: the per-platform credential gate -/

/-- C7: for each platform the post names, a missing credential (and for
LinkedIn also an expired token) makes the dispatcher record the synthetic
per-platform error, count the platform as failed, and skip the outbound
publish call entirely; the branch records the error instead of letting any
exception escape. -/
theorem dispatch_credentialGate (p : ScheduledPost) (u : User) (now : Int)
    (twRes liRes : Except String String) :
    ((p.platform = Platform.twitter ∨ p.platform = Platform.both) →
      (truthyStr u.twitterAccessToken && truthyStr u.twitterAccessSecret) = false →
      (processPost p u now twRes liRes).post.twitterError = some "Twitter not authorized" ∧
      (twSelect p u twRes).success = false ∧
      Effect.publishTwitter ∉ (processPost p u now twRes liRes).trace) ∧
    ((p.platform = Platform.linkedin ∨ p.platform = Platform.both) →
      truthyStr u.linkedinAccessToken = false →
      (processPost p u now twRes liRes).post.linkedinError = some "LinkedIn not authorized" ∧
      (liSelect p u now liRes).success = false ∧
      Effect.publishLinkedIn ∉ (processPost p u now twRes liRes).trace) ∧
    ((p.platform = Platform.linkedin ∨ p.platform = Platform.both) →
      truthyStr u.linkedinAccessToken = true →
      linkedinExpired u now = true →
      (processPost p u now twRes liRes).post.linkedinError = some "LinkedIn token expired" ∧
      (liSelect p u now liRes).success = false ∧
      Effect.publishLinkedIn ∉ (processPost p u now twRes liRes).trace) := by
  refine ⟨?_, ?_, ?_⟩
  · intro hpl hcred
    have hbr : twitterBranch u twRes =
        { success := false, postId := none,
          errMsg := some "Twitter not authorized", called := false } := by
      simp [twitterBranch, hcred]
    have hTw : twSelect p u twRes = twitterBranch u twRes := by
      rcases hpl with h | h <;> simp [twSelect, h]
    refine ⟨?_, ?_, ?_⟩
    · rw [processPost_post_eq]
      simp [hTw, hbr]
    · rw [hTw, hbr]
    · rw [processPost_trace_eq, hTw, hbr]
      cases p.generationRequestId <;> split_ifs <;> simp_all
  · intro hpl hcred
    have hbr : linkedinBranch u now liRes =
        { success := false, postId := none,
          errMsg := some "LinkedIn not authorized", called := false } := by
      simp [linkedinBranch, hcred]
    have hLi : liSelect p u now liRes = linkedinBranch u now liRes := by
      rcases hpl with h | h <;> simp [liSelect, h]
    refine ⟨?_, ?_, ?_⟩
    · rw [processPost_post_eq]
      simp [hLi, hbr]
    · rw [hLi, hbr]
    · rw [processPost_trace_eq, hLi, hbr]
      cases p.generationRequestId <;> split_ifs <;> simp_all
  · intro hpl hcred hexp
    have hbr : linkedinBranch u now liRes =
        { success := false, postId := none,
          errMsg := some "LinkedIn token expired", called := false } := by
      simp [linkedinBranch, hcred, hexp]
    have hLi : liSelect p u now liRes = linkedinBranch u now liRes := by
      rcases hpl with h | h <;> simp [liSelect, h]
    refine ⟨?_, ?_, ?_⟩
    · rw [processPost_post_eq]
      simp [hLi, hbr]
    · rw [hLi, hbr]
    · rw [processPost_trace_eq, hLi, hbr]
      cases p.generationRequestId <;> split_ifs <;> simp_all

/-- A user whose LinkedIn token expired at time 3, as test fixture. -/
def expiredLiUser : User :=
  { email := "e@example.com"
    twitterAccessToken := none
    twitterAccessSecret := none
    linkedinAccessToken := some "li-tok"
    linkedinTokenExpiry := some 3 }

/-- Witness for C7: with no stored Twitter credentials a twitter post records
"Twitter not authorized" without an outbound call, and with a LinkedIn token
expired at 3 a linkedin post at time 5 records "LinkedIn token expired"
without an outbound call. -/
theorem dispatch_credentialGate_witness :
    ((processPost (mkPost 2 1 Platform.twitter 0 Status.pending) noCredUser 5
      (Except.ok "tid") (Except.ok "lid")).post.twitterError = some "Twitter not authorized" ∧
     Effect.publishTwitter ∉ (processPost (mkPost 2 1 Platform.twitter 0 Status.pending) noCredUser 5
      (Except.ok "tid") (Except.ok "lid")).trace) ∧
    ((processPost (mkPost 3 1 Platform.linkedin 0 Status.pending) expiredLiUser 5
      (Except.ok "tid") (Except.ok "lid")).post.linkedinError = some "LinkedIn token expired" ∧
     Effect.publishLinkedIn ∉ (processPost (mkPost 3 1 Platform.linkedin 0 Status.pending) expiredLiUser 5
      (Except.ok "tid") (Except.ok "lid")).trace) := by
  have h1 := (dispatch_credentialGate (mkPost 2 1 Platform.twitter 0 Status.pending) noCredUser 5
    (Except.ok "tid") (Except.ok "lid")).1 (Or.inl rfl) (by decide)
  have h2 := (dispatch_credentialGate (mkPost 3 1 Platform.linkedin 0 Status.pending) expiredLiUser 5
    (Except.ok "tid") (Except.ok "lid")).2.2 (Or.inl rfl) (by decide) (by decide)
  exact ⟨⟨h1.1, h1.2.2⟩, ⟨h2.1, h2.2.2⟩⟩

/-! ## Tick-level lemmas -/

theorem applyUpdate_mem {store : List ScheduledPost} {p' q : ScheduledPost}
    (h : q ∈ applyUpdate store p') : (q ∈ store ∧ q.id ≠ p'.id) ∨ q = p' := by
  rcases List.mem_map.mp h with ⟨r, hr, hq⟩
  by_cases hid : r.id = p'.id
  · right
    rw [if_pos hid] at hq
    exact hq.symm
  · left
    rw [if_neg hid] at hq
    subst hq
    exact ⟨hr, hid⟩

theorem applyUpdate_mem_of_ne {store : List ScheduledPost} {p' q : ScheduledPost}
    (hq : q ∈ store) (hne : q.id ≠ p'.id) : q ∈ applyUpdate store p' := by
  refine List.mem_map.mpr ⟨q, hq, ?_⟩
  rw [if_neg hne]

theorem applyUpdate_ids (store : List ScheduledPost) (p' : ScheduledPost) :
    (applyUpdate store p').map (fun q => q.id) = store.map (fun q => q.id) := by
  induction store with
  | nil => rfl
  | cons r rest ih =>
    have hhead : (if r.id = p'.id then p' else r).id = r.id := by
      split <;> simp_all
    simp only [applyUpdate, List.map_cons] at ih ⊢
    rw [hhead, ih]

theorem runPosts_mem (env : TickEnv) (now : Int)
    (hupd : ∀ i, env.updateFails i = false) (due : List ScheduledPost) :
    ∀ store : List ScheduledPost, ∀ q ∈ runPosts env now due store,
      (q ∈ store ∧ ∀ p ∈ due, p.id ≠ q.id) ∨
      (∃ p ∈ due, q = (processPost p (env.users p.userId) now
        (env.twitterOutcome p.id) (env.linkedinOutcome p.id)).post) := by
  induction due with
  | nil =>
    intro store q hq
    exact Or.inl ⟨hq, by simp⟩
  | cons p rest ih =>
    intro store q hq
    rw [runPosts, hupd p.id] at hq
    simp only [Bool.false_eq_true, if_false] at hq
    rcases ih _ q hq with ⟨hmem, hids⟩ | ⟨p2, hp2, hq2⟩
    · rcases applyUpdate_mem hmem with ⟨hst, hne⟩ | hqp
      · refine Or.inl ⟨hst, ?_⟩
        intro r hr
        rcases List.mem_cons.mp hr with rfl | hr2
        · rw [processPost_id] at hne
          exact fun h => hne (h ▸ rfl)
        · exact hids r hr2
      · exact Or.inr ⟨p, List.mem_cons_self p rest, hqp⟩
    · exact Or.inr ⟨p2, List.mem_cons_of_mem p hp2, hq2⟩

theorem runPosts_ids (env : TickEnv) (now : Int)
    (hupd : ∀ i, env.updateFails i = false) (due : List ScheduledPost) :
    ∀ store : List ScheduledPost,
      (runPosts env now due store).map (fun q => q.id) = store.map (fun q => q.id) := by
  induction due with
  | nil => intro store; rfl
  | cons p rest ih =>
    intro store
    rw [runPosts, hupd p.id]
    simp only [Bool.false_eq_true, if_false]
    rw [ih, applyUpdate_ids]

theorem runPosts_preserve (env : TickEnv) (now : Int) (due : List ScheduledPost) :
    ∀ store q, q ∈ store → (∀ p ∈ due, p.id ≠ q.id) → q ∈ runPosts env now due store := by
  induction due with
  | nil => intro store q hq _; exact hq
  | cons p rest ih =>
    intro store q hq hids
    rw [runPosts]
    split
    · exact hq
    · refine ih _ q ?_ ?_
      · refine applyUpdate_mem_of_ne hq ?_
        rw [processPost_id]
        exact fun h => hids p (List.mem_cons_self p rest) (h ▸ rfl)
      · intro r hr
        exact hids r (List.mem_cons_of_mem p hr)

theorem isDue_false_of_terminal (now : Int) (q : ScheduledPost)
    (h : q.status = Status.posted ∨ q.status = Status.failed ∨ q.status = Status.cancelled) :
    isDue now q = false := by
  rcases h with h | h | h <;> simp [isDue, h]

/-! ## C1: one tick drives every observed due post to a terminal status -/

/-- C1: when no store update fails, a single run of `processDuePosts` leaves
no row pending-and-due, and every post observed as due (pending with
`scheduledFor ≤ now`) ends the run carrying a terminal status, `posted` or
`failed`. -/
theorem tick_resolvesDuePosts (env : TickEnv) (now : Int) (store : List ScheduledPost)
    (hupd : ∀ i, env.updateFails i = false) :
    (∀ q ∈ processDuePosts env now store, isDue now q = false) ∧
    (∀ p ∈ store, isDue now p = true →
      ∃ q ∈ processDuePosts env now store, q.id = p.id ∧
        (q.status = Status.posted ∨ q.status = Status.failed)) := by
  constructor
  · intro q hq
    rw [processDuePosts] at hq
    rcases runPosts_mem env now hupd _ _ q hq with ⟨hmem, hids⟩ | ⟨p2, hp2, hq2⟩
    · by_contra h
      have hqdue : isDue now q = true := by
        cases hdq : isDue now q
        · exact absurd hdq h
        · rfl
      have hfil : q ∈ store.filter (isDue now) := List.mem_filter.mpr ⟨hmem, hqdue⟩
      exact hids q hfil rfl
    · subst hq2
      refine isDue_false_of_terminal now _ ?_
      rw [processPost_status_eq]
      rcases overallStatus_terminal p2.platform _ _ with h | h
      · exact Or.inl h
      · exact Or.inr (Or.inl h)
  · intro p hp hdue
    have hid : p.id ∈ (processDuePosts env now store).map (fun q => q.id) := by
      rw [processDuePosts, runPosts_ids env now hupd]
      exact List.mem_map.mpr ⟨p, hp, rfl⟩
    rcases List.mem_map.mp hid with ⟨q, hq, hqid⟩
    refine ⟨q, hq, hqid, ?_⟩
    rw [processDuePosts] at hq
    rcases runPosts_mem env now hupd _ _ q hq with ⟨hmem, hids⟩ | ⟨p2, hp2, hq2⟩
    · exfalso
      have hfil : p ∈ store.filter (isDue now) := List.mem_filter.mpr ⟨hp, hdue⟩
      exact hids p hfil (by rw [hqid])
    · subst hq2
      rw [processPost_status_eq]
      exact overallStatus_terminal p2.platform _ _

/-- A tick environment in which both publishers succeed and no store update
fails, as test fixture. -/
def okEnv : TickEnv :=
  { users := fun _ => fullUser
    twitterOutcome := fun _ => Except.ok "t1"
    linkedinOutcome := fun _ => Except.ok "l1"
    updateFails := fun _ => false }

/-- Witness for C1: a concrete due pending post is terminal after one tick. -/
theorem tick_resolvesDuePosts_witness :
    ∃ q ∈ processDuePosts okEnv 5 [mkPost 1 1 Platform.twitter 0 Status.pending],
      q.id = (mkPost 1 1 Platform.twitter 0 Status.pending).id ∧
      (q.status = Status.posted ∨ q.status = Status.failed) := by
  exact (tick_resolvesDuePosts okEnv 5 [mkPost 1 1 Platform.twitter 0 Status.pending]
    (fun _ => rfl)).2 (mkPost 1 1 Platform.twitter 0 Status.pending) (by simp) (by decide)

/-! ## C4: terminal posts are never selected or re-mutated by the tick -/

/-- C4: in a store with distinct row ids, a post whose status is terminal
(`posted`, `failed` or `cancelled`) at the start of a tick is not selected
by the due-work query and survives the tick unchanged: the very same row is
still in the store afterwards. -/
theorem tick_leavesTerminalAlone (env : TickEnv) (now : Int) (store : List ScheduledPost)
    (hnd : (store.map (fun p => p.id)).Nodup) (q : ScheduledPost) (hq : q ∈ store)
    (hterm : q.status = Status.posted ∨ q.status = Status.failed ∨
      q.status = Status.cancelled) :
    q ∉ store.filter (isDue now) ∧ q ∈ processDuePosts env now store := by
  have hndue : isDue now q = false := isDue_false_of_terminal now q hterm
  constructor
  · intro hmem
    rw [List.mem_filter, hndue] at hmem
    exact absurd hmem.2 (by simp)
  · rw [processDuePosts]
    refine runPosts_preserve env now _ store q hq ?_
    intro p hp
    have hpstore := (List.mem_filter.mp hp).1
    have hpdue := (List.mem_filter.mp hp).2
    have hpq : p ≠ q := by
      intro h
      rw [h, hndue] at hpdue
      exact absurd hpdue (by simp)
    exact fun h => hpq (List.inj_on_of_nodup_map hnd hpstore hq h)

/-- Witness for C4: in a concrete store holding one posted and one due
pending post, the posted post is not selected and is untouched by the tick. -/
theorem tick_leavesTerminalAlone_witness :
    mkPost 1 1 Platform.twitter 0 Status.posted ∉
      [mkPost 1 1 Platform.twitter 0 Status.posted,
       mkPost 2 1 Platform.twitter 0 Status.pending].filter (isDue 5) ∧
    mkPost 1 1 Platform.twitter 0 Status.posted ∈
      processDuePosts okEnv 5
        [mkPost 1 1 Platform.twitter 0 Status.posted,
         mkPost 2 1 Platform.twitter 0 Status.pending] := by
  exact tick_leavesTerminalAlone okEnv 5
    [mkPost 1 1 Platform.twitter 0 Status.posted,
     mkPost 2 1 Platform.twitter 0 Status.pending]
    (by decide) (mkPost 1 1 Platform.twitter 0 Status.posted)
    (by simp) (Or.inl rfl)

/-! ## C6: a store error during one update ends the tick early -/

/-- A tick environment in which the store update of the post with id 1
throws, as test fixture. -/
def failEnv : TickEnv :=
  { users := fun _ => fullUser
    twitterOutcome := fun _ => Except.ok "t1"
    linkedinOutcome := fun _ => Except.ok "l1"
    updateFails := fun i => i == 1 }

/-- Counterexample to C6 as stated: two due pending posts, the store update
of the first one throws; the tick does NOT continue with the second due
post — the store comes back entirely unchanged, the second post still
pending and due even though its own update would have succeeded. -/
theorem tick_storeError_counterexample :
    processDuePosts failEnv 5
        [mkPost 1 1 Platform.twitter 0 Status.pending,
         mkPost 2 1 Platform.twitter 0 Status.pending] =
      [mkPost 1 1 Platform.twitter 0 Status.pending,
       mkPost 2 1 Platform.twitter 0 Status.pending] ∧
    isDue 5 (mkPost 2 1 Platform.twitter 0 Status.pending) = true ∧
    failEnv.updateFails 2 = false := by
  refine ⟨?_, by decide, rfl⟩
  rfl

theorem runPosts_append_abort (env : TickEnv) (now : Int) (p : ScheduledPost)
    (d2 : List ScheduledPost) (hp : env.updateFails p.id = true) :
    ∀ d1 : List ScheduledPost, (∀ q ∈ d1, env.updateFails q.id = false) →
      ∀ store, runPosts env now (d1 ++ p :: d2) store = runPosts env now d1 store := by
  intro d1
  induction d1 with
  | nil =>
    intro _ store
    rw [List.nil_append, runPosts, runPosts, if_pos hp]
  | cons r rest ih =>
    intro h1 store
    have hr : env.updateFails r.id = false := h1 r (List.mem_cons_self r rest)
    rw [List.cons_append, runPosts, runPosts, hr]
    simp only [Bool.false_eq_true, if_false]
    exact ih (fun s hs => h1 s (List.mem_cons_of_mem r hs)) _

/-- C6 amended: a store error while updating one due post is caught by the
tick's single try/catch, which logs and returns: the posts processed before
it keep their updates, but the failing post and every due post after it in
the same tick are left untouched (still pending, to be retried next tick);
the process itself survives. -/
theorem tick_stopsAtStoreError (env : TickEnv) (now : Int)
    (store d1 d2 : List ScheduledPost) (p : ScheduledPost)
    (hfil : store.filter (isDue now) = d1 ++ p :: d2)
    (h1 : ∀ q ∈ d1, env.updateFails q.id = false)
    (hp : env.updateFails p.id = true) :
    processDuePosts env now store = runPosts env now d1 store := by
  rw [processDuePosts, hfil]
  exact runPosts_append_abort env now p d2 hp d1 h1 store

/-- Witness for C6 amended: the concrete two-post batch above stops at the
first post, returning the store unchanged. -/
theorem tick_stopsAtStoreError_witness :
    processDuePosts failEnv 5
        [mkPost 1 1 Platform.twitter 0 Status.pending,
         mkPost 2 1 Platform.twitter 0 Status.pending] =
      runPosts failEnv 5 []
        [mkPost 1 1 Platform.twitter 0 Status.pending,
         mkPost 2 1 Platform.twitter 0 Status.pending] := by
  exact tick_stopsAtStoreError failEnv 5
    [mkPost 1 1 Platform.twitter 0 Status.pending,
     mkPost 2 1 Platform.twitter 0 Status.pending]
    [] [mkPost 2 1 Platform.twitter 0 Status.pending]
    (mkPost 1 1 Platform.twitter 0 Status.pending)
    (by decide) (by simp) rfl

/-! ## C3: cancelling, the pending-only rule -/

/-- Counterexample to C3 as stated: the cancel handler rejects only a
`posted` row, so cancelling a post whose status is `failed` is NOT rejected
— it succeeds and rewrites the status to `cancelled`. -/
theorem cancel_failedPost_counterexample :
    (mkPost 1 7 Platform.twitter 0 Status.failed).status = Status.failed ∧
    cancelScheduledPost [mkPost 1 7 Platform.twitter 0 Status.failed] 1 7 =
      Except.ok [mkPost 1 7 Platform.twitter 0 Status.cancelled] := by
  exact ⟨rfl, rfl⟩

/-- C3 amended: a cancel request by the owner is rejected with a domain
error exactly for a `posted` row; for a row of any other status — pending,
but also failed and cancelled — the cancel succeeds, setting that row's
status to `cancelled` and leaving every other row unchanged. -/
theorem cancel_pendingOnly_amended (store : List ScheduledPost) (postId userId : Nat)
    (p : ScheduledPost)
    (hfind : store.find? (fun q => q.id == postId && q.userId == userId) = some p) :
    (p.status = Status.posted →
      cancelScheduledPost store postId userId =
        Except.error "Cannot cancel a post that has already been posted") ∧
    (p.status ≠ Status.posted →
      ∃ store', cancelScheduledPost store postId userId = Except.ok store' ∧
        (∀ q ∈ store', q.id = postId → q.status = Status.cancelled) ∧
        (∀ q ∈ store', q.id ≠ postId → q ∈ store)) := by
  constructor
  · intro hst
    simp [cancelScheduledPost, hfind, hst]
  · intro hst
    have hbeq : (p.status == Status.posted) = false := by
      simp only [beq_eq_false_iff_ne, ne_eq]
      exact hst
    refine ⟨store.map (fun q =>
      if q.id = postId then { q with status := Status.cancelled } else q), ?_, ?_, ?_⟩
    · simp [cancelScheduledPost, hfind, hbeq]
    · intro q hq hid
      rcases List.mem_map.mp hq with ⟨r, hr, hrq⟩
      by_cases h : r.id = postId
      · rw [if_pos h] at hrq
        rw [← hrq]
      · rw [if_neg h] at hrq
        subst hrq
        exact absurd hid h
    · intro q hq hid
      rcases List.mem_map.mp hq with ⟨r, hr, hrq⟩
      by_cases h : r.id = postId
      · rw [if_pos h] at hrq
        subst hrq
        exact absurd h (by simpa using hid)
      · rw [if_neg h] at hrq
        subst hrq
        exact hr

/-- Witness for C3 amended: cancelling a concrete pending post succeeds and
sets its status to `cancelled`. -/
theorem cancel_pendingOnly_amended_witness :
    ∃ store', cancelScheduledPost [mkPost 4 9 Platform.linkedin 50 Status.pending] 4 9 =
        Except.ok store' ∧
      (∀ q ∈ store', q.id = 4 → q.status = Status.cancelled) ∧
      (∀ q ∈ store', q.id ≠ 4 → q ∈ [mkPost 4 9 Platform.linkedin 50 Status.pending]) :=
  (cancel_pendingOnly_amended [mkPost 4 9 Platform.linkedin 50 Status.pending] 4 9
    (mkPost 4 9 Platform.linkedin 50 Status.pending) (by decide)).2 (by decide)

/-! ## C9: schedule-time validation -/

/-- C9: the schedule handler creates a row exactly when content, platform
and scheduledFor are present (JS-truthy, so an empty string counts as
missing), the platform string is in the closed set, and the scheduled time
is strictly in the future; in every other case it returns an error and no
row.  A created row is owned by the requester and has status `pending`. -/
theorem schedule_validation_rule (req : ScheduleRequest) (userId : Nat) (now : Int)
    (newId : Nat) :
    ((∃ post, scheduleScheduledPost req userId now newId = Except.ok post) ↔
      (∃ c pl sf platform, req.content = some c ∧ (c == "") = false ∧
        req.platform = some pl ∧ parsePlatform pl = some platform ∧
        req.scheduledFor = some sf ∧ now < sf)) ∧
    (∀ post, scheduleScheduledPost req userId now newId = Except.ok post →
      post.status = Status.pending ∧ post.userId = userId ∧
      req.content = some post.content ∧ req.scheduledFor = some post.scheduledFor ∧
      now < post.scheduledFor) := by
  obtain ⟨oc, opl, osf, ogen⟩ := req
  cases oc with
  | none => simp [scheduleScheduledPost]
  | some c =>
    cases opl with
    | none => simp [scheduleScheduledPost]
    | some pl =>
      cases osf with
      | none => simp [scheduleScheduledPost]
      | some sf =>
        by_cases hc : (c == "") = true
        · have hc0 : c = "" := by simpa using hc
          subst hc0
          simp [scheduleScheduledPost]
        · by_cases hpl : (pl == "") = true
          · have hpl0 : pl = "" := by simpa using hpl
            subst hpl0
            simp [scheduleScheduledPost, hc, parsePlatform]
          · cases hpp : parsePlatform pl with
            | none => simp [scheduleScheduledPost, hc, hpl, hpp]
            | some platform =>
              by_cases hsf : sf ≤ now
              · simp [scheduleScheduledPost, hc, hpl, hpp, hsf]
              · simp [scheduleScheduledPost, hc, hpl, hpp, hsf]
                exact ⟨by simpa using hc, by omega⟩

/-! ## C10: the list operation, ownership and ordering -/

/-- C10: the list handler returns only rows of the requesting owner (further
matching the status filter when one is given), returns every such row, and
always returns them sorted by `scheduledFor` in ascending order. -/
theorem list_owner_sorted (store : List ScheduledPost) (userId : Nat)
    (statusFilter : Option Status) :
    (∀ q ∈ listScheduledPosts store userId statusFilter,
      q.userId = userId ∧ q ∈ store ∧ ∀ s, statusFilter = some s → q.status = s) ∧
    (∀ q ∈ store, q.userId = userId → (∀ s, statusFilter = some s → q.status = s) →
      q ∈ listScheduledPosts store userId statusFilter) ∧
    List.Sorted byScheduledFor (listScheduledPosts store userId statusFilter) := by
  refine ⟨?_, ?_, ?_⟩
  · intro q hq
    rw [listScheduledPosts, List.mem_insertionSort, List.mem_filter] at hq
    obtain ⟨hmem, hw⟩ := hq
    cases statusFilter with
    | none =>
      simp [listWhere] at hw
      exact ⟨hw, hmem, by simp⟩
    | some s =>
      simp [listWhere] at hw
      exact ⟨hw.1, hmem, fun s2 hs2 => by
        cases hs2
        exact hw.2⟩
  · intro q hq howner hstatus
    rw [listScheduledPosts, List.mem_insertionSort, List.mem_filter]
    refine ⟨hq, ?_⟩
    cases statusFilter with
    | none => simp [listWhere, howner]
    | some s => simp [listWhere, howner, hstatus s rfl]
  · rw [listScheduledPosts]
    exact List.sorted_insertionSort byScheduledFor _

/-- Witness for C9: a concrete valid request (content "Hello", platform
twitter, scheduled at 100 with now = 0) is accepted and the created row is
pending. -/
theorem schedule_validation_rule_witness :
    ∃ post, scheduleScheduledPost
      { content := some "Hello", platform := some "twitter", scheduledFor := some 100,
        generationRequestId := none } 7 0 42 = Except.ok post ∧
      post.status = Status.pending := by
  have h := schedule_validation_rule
    { content := some "Hello", platform := some "twitter", scheduledFor := some 100,
      generationRequestId := none } 7 0 42
  obtain ⟨post, hpost⟩ := h.1.mpr
    ⟨"Hello", "twitter", 100, Platform.twitter, rfl, by decide, rfl, rfl, rfl, by omega⟩
  exact ⟨post, hpost, (h.2 post hpost).1⟩

/-- Witness for C10: in a concrete two-owner store, the owner's row is
listed and the listing is sorted by scheduledFor. -/
theorem list_owner_sorted_witness :
    (mkPost 1 7 Platform.twitter 30 Status.pending ∈
      listScheduledPosts
        [mkPost 2 8 Platform.twitter 20 Status.pending,
         mkPost 1 7 Platform.twitter 30 Status.pending] 7 none) ∧
    List.Sorted byScheduledFor
      (listScheduledPosts
        [mkPost 2 8 Platform.twitter 20 Status.pending,
         mkPost 1 7 Platform.twitter 30 Status.pending] 7 none) := by
  have h := list_owner_sorted
    [mkPost 2 8 Platform.twitter 20 Status.pending,
     mkPost 1 7 Platform.twitter 30 Status.pending] 7 none
  refine ⟨h.2.1 (mkPost 1 7 Platform.twitter 30 Status.pending) (by simp) rfl ?_, h.2.2⟩
  intro s hs
  cases hs
